import Mathlib

/-!
Verification development for the World ID widget loader and bootstrap
(`src/components/worldcoin/IDKitWeb.tsx`, canonical second version, and
`src/app/(tabs)/index.tsx`).

The development shallowly embeds:
* the redirect-URL construction performed by the `onSuccess` callbacks
  (JSON serialization, `encodeURIComponent`, and the WHATWG
  `URLSearchParams` / `url.toString()` serialization);
* the retry/fallback state machine of `loadIDKitScript` (`cycle` /
  `tryLoad`), with external network behaviour abstracted as an oracle;
* the process-wide singleton promise bookkeeping of `loadIDKitScript`;
* the environment detector (`isWorldEnv` / `useIsWorldApp`) and the
  banner / auto-open gating of the home screen;
* the `onPress` / `onClose` state machine of `WorldIDVerifyButton`.
-/

/-! ## String encoding primitives

These model the browser built-ins used by the `onSuccess` callbacks:
`JSON.stringify`, `encodeURIComponent`, and the
application/x-www-form-urlencoded serializer that `URLSearchParams`
(and hence `url.toString()`) applies to query values.
-/

/-- Uppercase hexadecimal digit, as produced by both `encodeURIComponent`
and the WHATWG percent-encoder. -/
def hexDigitU (n : Nat) : Char :=
  if n < 10 then Char.ofNat (48 + n) else Char.ofNat (55 + n)

/-- Lowercase hexadecimal digit, as produced by `JSON.stringify` for
control-character escapes. -/
def hexDigitL (n : Nat) : Char :=
  if n < 10 then Char.ofNat (48 + n) else Char.ofNat (87 + n)

/-- Percent-encode a single byte: `%XY` with uppercase hex. -/
def pctEncodeByte (b : Nat) : List Char :=
  ['%', hexDigitU (b / 16), hexDigitU (b % 16)]

/-- UTF-8 encoding of a Unicode scalar value, as a list of byte values. -/
def utf8Bytes (c : Nat) : List Nat :=
  if c < 128 then [c]
  else if c < 2048 then [192 + c / 64, 128 + c % 64]
  else if c < 65536 then [224 + c / 4096, 128 + (c / 64) % 64, 128 + c % 64]
  else [240 + c / 262144, 128 + (c / 4096) % 64, 128 + (c / 64) % 64, 128 + c % 64]

/-- The UTF-8 bytes of a string. -/
def strUtf8 (s : String) : List Nat :=
  s.toList.flatMap (fun c => utf8Bytes c.toNat)

/-- ASCII letters and digits. -/
def isAsciiAlphaNum (c : Char) : Bool :=
  decide ((48 ≤ c.toNat ∧ c.toNat ≤ 57) ∨ (65 ≤ c.toNat ∧ c.toNat ≤ 90) ∨
    (97 ≤ c.toNat ∧ c.toNat ≤ 122))

/-- The extra characters `encodeURIComponent` leaves unescaped:
`- _ . ! ~ * ' ( )`. -/
def isUriMark (c : Char) : Bool :=
  decide (c.toNat = 45 ∨ c.toNat = 95 ∨ c.toNat = 46 ∨ c.toNat = 33 ∨
    c.toNat = 126 ∨ c.toNat = 42 ∨ c.toNat = 39 ∨ c.toNat = 40 ∨ c.toNat = 41)

/-- Model of the ECMAScript built-in `encodeURIComponent`: unreserved
characters pass through, every other character has its UTF-8 bytes
percent-encoded with uppercase hex. -/
def encodeURIComponent (s : String) : String :=
  String.mk (s.toList.flatMap (fun c =>
    if isAsciiAlphaNum c || isUriMark c then [c]
    else (utf8Bytes c.toNat).flatMap pctEncodeByte))

/-- Bytes the application/x-www-form-urlencoded serializer leaves
unescaped: ASCII alphanumerics and `* - . _`. -/
def isFormSafeByte (b : Nat) : Bool :=
  decide ((48 ≤ b ∧ b ≤ 57) ∨ (65 ≤ b ∧ b ≤ 90) ∨ (97 ≤ b ∧ b ≤ 122) ∨
    b = 42 ∨ b = 45 ∨ b = 46 ∨ b = 95)

/-- Model of the WHATWG application/x-www-form-urlencoded serializer used
by `URLSearchParams` when the `URL` is serialized: space becomes `+`,
safe bytes pass through, all other UTF-8 bytes are percent-encoded. -/
def formUrlEncode (s : String) : String :=
  String.mk ((strUtf8 s).flatMap (fun b =>
    if b = 32 then ['+']
    else if isFormSafeByte b then [Char.ofNat b]
    else pctEncodeByte b))

/-! ## JSON serialization -/

/-- JSON values, restricted to the shapes that flow through the success
callbacks (strings and objects suffice for the verification payloads the
claims mention). -/
inductive JsonVal where
  | jstr : String → JsonVal
  | jobj : List (String × JsonVal) → JsonVal

/-- `JSON.stringify` escaping for one character of a string literal. -/
def jsonEscapeChar (c : Char) : List Char :=
  if c.toNat = 34 then ['\\', '"']
  else if c.toNat = 92 then ['\\', '\\']
  else if c.toNat = 10 then ['\\', 'n']
  else if c.toNat = 13 then ['\\', 'r']
  else if c.toNat = 9 then ['\\', 't']
  else if c.toNat = 8 then ['\\', 'b']
  else if c.toNat = 12 then ['\\', 'f']
  else if c.toNat < 32 then
    ['\\', 'u', '0', '0', hexDigitL (c.toNat / 16), hexDigitL (c.toNat % 16)]
  else [c]

/-- `JSON.stringify` of a string: double quotes around the escaped body. -/
def jsonQuote (s : String) : String :=
  String.mk ('"' :: s.toList.flatMap jsonEscapeChar ++ ['"'])

mutual

/-- Model of the external `JSON.stringify` on the modelled value shapes. -/
def stringify : JsonVal → String
  | JsonVal.jstr s => jsonQuote s
  | JsonVal.jobj fields => "\x7b" ++ stringifyFields fields ++ "\x7d"

/-- Comma-separated `"key":value` serialization of object fields. -/
def stringifyFields : List (String × JsonVal) → String
  | [] => ""
  | [(nm, v)] => jsonQuote nm ++ ":" ++ stringify v
  | (nm, v) :: p :: rest =>
      jsonQuote nm ++ ":" ++ stringify v ++ "," ++ stringifyFields (p :: rest)

end

/-! ## The success-callback redirect

Embeds the body of the `onSuccess` callbacks
(`IDKitWeb.tsx` lines 418-427 and 358-367, `index.tsx` lines 64-76):

  const url = new URL(callbackUrl);
  url.searchParams.set('result', encodeURIComponent(JSON.stringify(result)));
  window.location.href = url.toString();

For a base callback URL that the WHATWG URL parser leaves unchanged and
that carries no query or fragment, `url.toString()` is the base followed
by `?` and the form-urlencoded serialization of the single `result`
parameter. -/
def redirectTarget (callbackUrl : String) (result : JsonVal) : String :=
  callbackUrl ++ "?" ++ formUrlEncode "result" ++ "=" ++
    formUrlEncode (encodeURIComponent (stringify result))

/-- The successful verification payload of the claim: `{ "nonce": "abc" }`. -/
def noncePayload : JsonVal := JsonVal.jobj [("nonce", JsonVal.jstr "abc")]

/-! ## The script loader (`loadIDKitScript`, canonical version, lines 200-285)

The loader's interaction with the browser is abstracted as an oracle:
for the `k`-th `<script>` element injected by the loader the network
either fires `onload` first (`Fate.loads`), fires `onerror` first
(`Fate.errs`), or stays silent until the 15000 ms timer fires
(`Fate.hangs`).  `now` gives the value of the `k`-th call to
`Date.now()`, and `sdkPresent` tells whether an IDKit global
(`window.IDKit`, `window.WorldID.IDKit` or `window.worldID.IDKit`)
exists when a script's `onload` fires. -/
inductive Fate where
  | loads
  | errs
  | hangs
deriving DecidableEq

/-- External-world oracle for one run of the loader's attempt sequence. -/
structure LoaderEnv where
  fate : Nat → Fate
  now : Nat → Nat
  sdkPresent : Bool

/-- The ordered candidate URL list `sourcesBase` (lines 206-210). -/
def sourcesBase : List String :=
  ["https://idkit.worldcoin.org/idkit.js",
   "https://id.worldcoin.org/idkit.js",
   "https://cdn.worldcoin.org/idkit.js"]

/-- `maxAttempts` (line 219). -/
def maxAttempts : Nat := 3

/-- `timeoutMs` (line 247). -/
def timeoutMs : Nat := 15000

/-- The message of the error the loader rejects with on exhaustion
(line 224). -/
def loadFailMsg : String := "Failed to load IDKit script"

/-- The cache-busted URL list built by `cycle` when `useCacheBust` holds
(line 228): each source gets `?v=${Date.now()}-${attempt}` appended,
with one `Date.now()` call per source starting at call counter `c` and
`attempt` read before its increment. -/
def bustUrls (now : Nat → Nat) (c attempt : Nat) : List String :=
  sourcesBase.enum.map
    (fun p => p.2 ++ "?v=" ++ toString (now (c + p.1)) ++ "-" ++ toString attempt)

/-- Observable DOM / promise events of one loader run. -/
inductive Ev where
  | inject (url : String)
  | remove (url : String)
  | warnSdkMissing
  | resolve
  | reject (msg : String)
deriving DecidableEq

/-- The `console.warn` + `resolve()` tail of `script.onload`
(lines 254-262): a warning is emitted when no SDK global exists, and the
promise resolves either way. -/
def warnOpt (sdkPresent : Bool) : List Ev :=
  if sdkPresent then [] else [Ev.warnSdkMissing]

mutual

/-- `cycle` (lines 221-232): reject once `attempt` reaches `maxAttempts`,
otherwise build the (possibly cache-busted) URL list, increment
`attempt`, and hand the list to `tryLoad`.  `c` counts `Date.now()`
calls, `k` counts script injections. -/
def cycleRun (env : LoaderEnv) (c k attempt : Nat) (useCacheBust : Bool) :
    List Ev :=
  if attempt ≥ maxAttempts then
    [Ev.reject loadFailMsg]
  else
    tryLoadRun env (if useCacheBust then c + sourcesBase.length else c) k
      (attempt + 1)
      (if useCacheBust then bustUrls env.now c attempt else sourcesBase)
      useCacheBust
termination_by (maxAttempts - attempt, 0)

/-- `tryLoad` (lines 234-270): on an empty list start the next cycle with
the cache-bust flag flipped; otherwise inject the head URL and consult
the oracle: `onload` resolves (warning first when the SDK global is
missing), while `onerror` and the 15000 ms timer both remove the script
element and recurse on the tail. -/
def tryLoadRun (env : LoaderEnv) (c k attempt : Nat) (urls : List String)
    (usedBust : Bool) : List Ev :=
  match urls with
  | [] => cycleRun env c k attempt (!usedBust)
  | url :: rest =>
    match env.fate k with
    | Fate.loads => Ev.inject url :: warnOpt env.sdkPresent ++ [Ev.resolve]
    | Fate.errs =>
        Ev.inject url :: Ev.remove url ::
          tryLoadRun env c (k + 1) attempt rest usedBust
    | Fate.hangs =>
        Ev.inject url :: Ev.remove url ::
          tryLoadRun env c (k + 1) attempt rest usedBust
termination_by (maxAttempts - attempt, urls.length + 1)

end

/-- One full run of the attempt sequence: the executor's `cycle(false)`
call (line 272). -/
def runLoad (env : LoaderEnv) : List Ev := cycleRun env 0 0 0 false

/-- What the network does for one injected script: fires `load` at time
`t`, fires `error` at time `t`, or stays silent. -/
inductive NetEvent where
  | loadAt (t : Nat)
  | errorAt (t : Nat)
  | silent
deriving DecidableEq

/-- The race between a candidate's network events and the
`setTimeout(..., 15000)` timer (lines 248-268): whichever fires first
wins, since the handlers call `clearTimeout` and the timer removes the
script element. -/
def raceFate : NetEvent → Fate
  | NetEvent.loadAt t => if t < timeoutMs then Fate.loads else Fate.hangs
  | NetEvent.errorAt t => if t < timeoutMs then Fate.errs else Fate.hangs
  | NetEvent.silent => Fate.hangs

/-- The time at which a candidate's attempt settles (its handler or its
timer fires). -/
def settleDelay : NetEvent → Nat
  | NetEvent.loadAt t => min t timeoutMs
  | NetEvent.errorAt t => min t timeoutMs
  | NetEvent.silent => timeoutMs

/-- URLs of the `inject` events of a trace, in order. -/
def injectedUrls (tr : List Ev) : List String :=
  tr.filterMap (fun e =>
    match e with
    | Ev.inject u => some u
    | _ => none)

/-- Script elements present in the document after replaying a trace
(each injected script carries the `data-idkit-script` marker). -/
def docScripts (tr : List Ev) : List String :=
  tr.foldl
    (fun acc e =>
      match e with
      | Ev.inject u => acc ++ [u]
      | Ev.remove u => acc.erase u
      | _ => acc)
    []

/-- Whether a trace ends in rejection of the loader promise. -/
def didReject (tr : List Ev) : Bool :=
  tr.any (fun e =>
    match e with
    | Ev.reject _ => true
    | _ => false)

/-! ## Closed form of a loader run

`segTrace` replays one cycle's URL list against the oracle and defers to
a continuation when the list is exhausted; `chainTrace` strings the
cycles together.  `runLoad` is proved equal to the three-cycle chain
plain / cache-busted / plain, which is then analysed once in
`chainTrace_shape`. -/

/-- Trace of one cycle's URL list: each URL is injected, and failed ones
are removed before the next is tried. -/
def segTrace (env : LoaderEnv) : Nat → List String → (Nat → List Ev) → List Ev
  | k, [], onExhaust => onExhaust k
  | k, url :: rest, onExhaust =>
    match env.fate k with
    | Fate.loads => Ev.inject url :: warnOpt env.sdkPresent ++ [Ev.resolve]
    | Fate.errs =>
        Ev.inject url :: Ev.remove url :: segTrace env (k + 1) rest onExhaust
    | Fate.hangs =>
        Ev.inject url :: Ev.remove url :: segTrace env (k + 1) rest onExhaust

/-- Trace of a list of cycles, rejecting when all are exhausted. -/
def chainTrace (env : LoaderEnv) : Nat → List (List String) → List Ev
  | _, [] => [Ev.reject loadFailMsg]
  | k, seg :: rest => segTrace env k seg (fun j => chainTrace env j rest)

/-- The inject/remove pairs left behind by a list of failed candidates. -/
def failPairs (urls : List String) : List Ev :=
  urls.flatMap (fun u => [Ev.inject u, Ev.remove u])

/-- The full URL sequence a run can inject: the plain sources, the
cache-busted sources of the second cycle, the plain sources again. -/
def plannedUrls (env : LoaderEnv) : List String :=
  sourcesBase ++ bustUrls env.now 0 1 ++ sourcesBase

theorem segTrace_congr (env : LoaderEnv) {f g : Nat → List Ev}
    (h : ∀ j, f j = g j) :
    ∀ (urls : List String) (k : Nat),
      segTrace env k urls f = segTrace env k urls g
  | [], k => by simp [segTrace, h k]
  | url :: rest, k => by
      cases hf : env.fate k <;>
        simp [segTrace, hf, segTrace_congr env h rest (k + 1)]

theorem tryLoadRun_eq_seg (env : LoaderEnv) (c attempt : Nat) (ub : Bool) :
    ∀ (urls : List String) (k : Nat),
      tryLoadRun env c k attempt urls ub =
        segTrace env k urls (fun j => cycleRun env c j attempt (!ub))
  | [], k => by simp [tryLoadRun, segTrace]
  | url :: rest, k => by
      cases hf : env.fate k <;>
        simp [tryLoadRun, segTrace, hf,
          tryLoadRun_eq_seg env c attempt ub rest (k + 1)]

theorem runLoad_closed (env : LoaderEnv) :
    runLoad env =
      chainTrace env 0 [sourcesBase, bustUrls env.now 0 1, sourcesBase] := by
  have e3 : ∀ j : Nat, cycleRun env 3 j 3 true = chainTrace env j [] := by
    intro j; simp [cycleRun, chainTrace, maxAttempts]
  have e2 : ∀ j : Nat,
      cycleRun env 3 j 2 false = chainTrace env j [sourcesBase] := by
    intro j
    have h : cycleRun env 3 j 2 false = tryLoadRun env 3 j 3 sourcesBase false := by
      simp [cycleRun, maxAttempts]
    rw [h, tryLoadRun_eq_seg]
    simpa [chainTrace] using
      segTrace_congr env (fun i => by simpa using e3 i) sourcesBase j
  have e1 : ∀ j : Nat,
      cycleRun env 0 j 1 true =
        chainTrace env j [bustUrls env.now 0 1, sourcesBase] := by
    intro j
    have h : cycleRun env 0 j 1 true =
        tryLoadRun env 3 j 2 (bustUrls env.now 0 1) true := by
      simp [cycleRun, maxAttempts, sourcesBase]
    rw [h, tryLoadRun_eq_seg]
    simpa [chainTrace] using
      segTrace_congr env (fun i => by simpa using e2 i)
        (bustUrls env.now 0 1) j
  have h0 : runLoad env = tryLoadRun env 0 0 1 sourcesBase false := by
    simp [runLoad, cycleRun, maxAttempts]
  rw [h0, tryLoadRun_eq_seg]
  simpa [chainTrace] using
    segTrace_congr env (fun i => by simpa using e1 i) sourcesBase 0

theorem segTrace_cons_loads (env : LoaderEnv) {k : Nat}
    (hf : env.fate k = Fate.loads) (u : String) (rest : List String)
    (f : Nat → List Ev) :
    segTrace env k (u :: rest) f =
      Ev.inject u :: warnOpt env.sdkPresent ++ [Ev.resolve] := by
  simp [segTrace, hf]

theorem segTrace_cons_fail (env : LoaderEnv) {k : Nat}
    (hf : env.fate k ≠ Fate.loads) (u : String) (rest : List String)
    (f : Nat → List Ev) :
    segTrace env k (u :: rest) f =
      Ev.inject u :: Ev.remove u :: segTrace env (k + 1) rest f := by
  cases h : env.fate k
  · exact absurd h hf
  · simp [segTrace, h]
  · simp [segTrace, h]

theorem segTrace_shape (env : LoaderEnv) (f : Nat → List Ev) :
    ∀ (urls : List String) (k : Nat),
      ((∀ i, i < urls.length → env.fate (k + i) ≠ Fate.loads) ∧
        segTrace env k urls f = failPairs urls ++ f (k + urls.length)) ∨
      (∃ j, j < urls.length ∧ env.fate (k + j) = Fate.loads ∧
        (∀ i, i < j → env.fate (k + i) ≠ Fate.loads) ∧
        segTrace env k urls f =
          failPairs (urls.take j) ++
            Ev.inject (urls.getD j "") :: warnOpt env.sdkPresent ++
              [Ev.resolve]) := by
  intro urls
  induction urls with
  | nil =>
    intro k
    left
    refine ⟨fun i hi => by simp at hi, ?_⟩
    simp [segTrace, failPairs]
  | cons u rest ih =>
    intro k
    by_cases hf : env.fate k = Fate.loads
    · right
      refine ⟨0, by simp, by simpa using hf, fun i hi => by omega, ?_⟩
      simp [segTrace_cons_loads env hf, failPairs]
    · rcases ih (k + 1) with ⟨hall, heq⟩ | ⟨j, hj, hl, hfail, heq⟩
      · left
        constructor
        · intro i hi
          cases i with
          | zero => simpa using hf
          | succ i' =>
            have h1 : k + (i' + 1) = (k + 1) + i' := by omega
            rw [h1]
            exact hall i' (by simp at hi; omega)
        · have h2 : (k + 1) + rest.length = k + (rest.length + 1) := by omega
          rw [segTrace_cons_fail env hf, heq, h2]
          simp [failPairs]
      · right
        refine ⟨j + 1, by simp; omega, ?_, ?_, ?_⟩
        · have h1 : k + (j + 1) = (k + 1) + j := by omega
          rw [h1]; exact hl
        · intro i hi
          cases i with
          | zero => simpa using hf
          | succ i' =>
            have h1 : k + (i' + 1) = (k + 1) + i' := by omega
            rw [h1]
            exact hfail i' (by omega)
        · rw [segTrace_cons_fail env hf, heq]
          simp [failPairs, List.take_succ_cons, List.getD_cons_succ]

theorem chainTrace_shape (env : LoaderEnv) :
    ∀ (segs : List (List String)) (k : Nat),
      ((∀ i, i < segs.flatten.length → env.fate (k + i) ≠ Fate.loads) ∧
        chainTrace env k segs =
          failPairs segs.flatten ++ [Ev.reject loadFailMsg]) ∨
      (∃ j, j < segs.flatten.length ∧ env.fate (k + j) = Fate.loads ∧
        (∀ i, i < j → env.fate (k + i) ≠ Fate.loads) ∧
        chainTrace env k segs =
          failPairs (segs.flatten.take j) ++
            Ev.inject (segs.flatten.getD j "") :: warnOpt env.sdkPresent ++
              [Ev.resolve]) := by
  intro segs
  induction segs with
  | nil =>
    intro k
    left
    refine ⟨fun i hi => by simp at hi, ?_⟩
    simp [chainTrace, failPairs]
  | cons seg rest ih =>
    intro k
    have hchain : chainTrace env k (seg :: rest) =
        segTrace env k seg (fun j => chainTrace env j rest) := by
      simp [chainTrace]
    rcases segTrace_shape env (fun j => chainTrace env j rest) seg k with
      ⟨hall1, heq1⟩ | ⟨j, hj, hl, hfail, heq⟩
    · rcases ih (k + seg.length) with ⟨hall2, heq2⟩ | ⟨j2, hj2, hl2, hfail2, heq2⟩
      · left
        constructor
        · intro i hi
          rw [List.flatten_cons, List.length_append] at hi
          by_cases hcase : i < seg.length
          · exact hall1 i hcase
          · have h1 : k + i = (k + seg.length) + (i - seg.length) := by omega
            rw [h1]
            exact hall2 (i - seg.length) (by omega)
        · rw [hchain, heq1]
          simp only [heq2]
          simp [failPairs, List.flatMap_append]
      · right
        refine ⟨seg.length + j2, ?_, ?_, ?_, ?_⟩
        · rw [List.flatten_cons, List.length_append]; omega
        · have h1 : k + (seg.length + j2) = (k + seg.length) + j2 := by omega
          rw [h1]; exact hl2
        · intro i hi
          by_cases hcase : i < seg.length
          · exact hall1 i hcase
          · have h1 : k + i = (k + seg.length) + (i - seg.length) := by omega
            rw [h1]
            exact hfail2 (i - seg.length) (by omega)
        · rw [hchain, heq1]
          simp only [heq2]
          have htake : (seg ++ rest.flatten).take (seg.length + j2) =
              seg ++ rest.flatten.take j2 := by
            rw [List.take_append_eq_append_take,
              List.take_of_length_le (by omega)]
            congr 2
            omega
          have hgetD : (seg ++ rest.flatten).getD (seg.length + j2) "" =
              rest.flatten.getD j2 "" := by
            rw [List.getD_eq_getElem?_getD, List.getD_eq_getElem?_getD,
              List.getElem?_append_right (by omega)]
            congr 2
            omega
          rw [List.flatten_cons, htake, hgetD]
          simp [failPairs, List.flatMap_append]
    · right
      refine ⟨j, ?_, ?_, hfail, ?_⟩
      · rw [List.flatten_cons, List.length_append]; omega
      · exact hl
      · rw [hchain, heq]
        have htake : (seg ++ rest.flatten).take j = seg.take j := by
          rw [List.take_append_eq_append_take,
            Nat.sub_eq_zero_of_le (by omega)]
          simp
        have hgetD : (seg ++ rest.flatten).getD j "" = seg.getD j "" := by
          rw [List.getD_eq_getElem?_getD, List.getD_eq_getElem?_getD,
            List.getElem?_append]
          rw [if_pos hj]
        rw [List.flatten_cons, htake, hgetD]

theorem flatten_cycles (env : LoaderEnv) :
    ([sourcesBase, bustUrls env.now 0 1, sourcesBase]).flatten =
      plannedUrls env := by
  simp [plannedUrls]

theorem bustUrls_length (now : Nat → Nat) (c attempt : Nat) :
    (bustUrls now c attempt).length = 3 := by
  simp [bustUrls, sourcesBase]

theorem plannedUrls_length (env : LoaderEnv) :
    (plannedUrls env).length = 9 := by
  simp [plannedUrls, List.length_append, bustUrls_length, sourcesBase]

/-- Master shape of a loader run: either every one of the nine planned
candidates fails and the run ends in rejection, or the first succeeding
candidate `j` resolves the run after the `j` earlier candidates were each
injected and removed. -/
theorem runLoad_shape (env : LoaderEnv) :
    ((∀ i, i < 9 → env.fate i ≠ Fate.loads) ∧
      runLoad env = failPairs (plannedUrls env) ++ [Ev.reject loadFailMsg]) ∨
    (∃ j, j < 9 ∧ env.fate j = Fate.loads ∧
      (∀ i, i < j → env.fate i ≠ Fate.loads) ∧
      runLoad env =
        failPairs ((plannedUrls env).take j) ++
          Ev.inject ((plannedUrls env).getD j "") :: warnOpt env.sdkPresent ++
            [Ev.resolve]) := by
  have hlen : ([sourcesBase, bustUrls env.now 0 1, sourcesBase]).flatten.length
      = 9 := by
    rw [flatten_cycles, plannedUrls_length]
  rcases chainTrace_shape env [sourcesBase, bustUrls env.now 0 1, sourcesBase] 0
    with ⟨hall, heq⟩ | ⟨j, hj, hl, hfail, heq⟩
  · left
    refine ⟨fun i hi => by simpa using hall i (by omega), ?_⟩
    rw [runLoad_closed, heq, flatten_cycles]
  · right
    refine ⟨j, by omega, by simpa using hl,
      fun i hi => by simpa using hfail i hi, ?_⟩
    rw [runLoad_closed, heq, flatten_cycles]

theorem mem_failPairs {e : Ev} :
    ∀ {l : List String}, e ∈ failPairs l →
      ∃ u, u ∈ l ∧ (e = Ev.inject u ∨ e = Ev.remove u) := by
  intro l
  induction l with
  | nil => simp [failPairs]
  | cons u rest ih =>
    intro h
    simp only [failPairs, List.flatMap_cons] at h
    rcases List.mem_append.mp h with h1 | h2
    · have h3 : e = Ev.inject u ∨ e = Ev.remove u := by simpa using h1
      exact ⟨u, by simp, h3⟩
    · rcases ih h2 with ⟨v, hv, hev⟩
      exact ⟨v, by simp [hv], hev⟩

theorem injectedUrls_failPairs :
    ∀ l : List String, injectedUrls (failPairs l) = l := by
  intro l
  induction l with
  | nil => simp [failPairs, injectedUrls]
  | cons u rest ih =>
    simp only [failPairs, List.flatMap_cons, injectedUrls,
      List.filterMap_append] at ih ⊢
    simp [ih]

theorem injectedUrls_append (tr1 tr2 : List Ev) :
    injectedUrls (tr1 ++ tr2) = injectedUrls tr1 ++ injectedUrls tr2 := by
  simp [injectedUrls, List.filterMap_append]

theorem docScripts_failPairs :
    ∀ (l : List String) (rest : List Ev),
      (failPairs l ++ rest).foldl
        (fun acc e =>
          match e with
          | Ev.inject u => acc ++ [u]
          | Ev.remove u => acc.erase u
          | _ => acc)
        [] =
      rest.foldl
        (fun acc e =>
          match e with
          | Ev.inject u => acc ++ [u]
          | Ev.remove u => acc.erase u
          | _ => acc)
        [] := by
  intro l
  induction l with
  | nil => simp [failPairs]
  | cons u tail ih =>
    intro rest
    simpa [failPairs, List.erase_cons_head] using ih rest

theorem didReject_exhausted (env : LoaderEnv) (msg : String) :
    didReject (failPairs (plannedUrls env) ++ [Ev.reject msg]) = true := by
  simp [didReject, List.any_append]

theorem segTrace_head (env : LoaderEnv) (k : Nat) (u : String)
    (rest : List String) (f : Nat → List Ev) :
    (segTrace env k (u :: rest) f).head? = some (Ev.inject u) := by
  cases h : env.fate k <;> simp [segTrace, h]

theorem runLoad_head (env : LoaderEnv) :
    (runLoad env).head? =
      some (Ev.inject "https://idkit.worldcoin.org/idkit.js") := by
  rw [runLoad_closed]
  simp only [chainTrace, sourcesBase]
  exact segTrace_head env 0 _ _ _

/-! ## Singleton bookkeeping of `loadIDKitScript` (lines 200-285)

`window._idkitLoading` is modelled as an optional promise identifier.
`loadCall` is the synchronous body of one `loadIDKitScript()` call:
return the singleton when it exists, otherwise create a fresh promise,
resolving at once when a marker script tag is already in the document and
starting the attempt sequence otherwise.  `settleLoad` is the deferred
settlement of a started attempt sequence: it updates the DOM marker and,
through the registered `.catch` handler (lines 278-282), deletes the
singleton when the promise rejected. -/

/-- What one `loadIDKitScript()` call returns. -/
inductive CallOutcome where
  | nativeResolved
  | existingRef (id : Nat)
  | markerResolved (id : Nat)
  | startedLoad (id : Nat) (tr : List Ev)
deriving DecidableEq

/-- Process-wide state touched by `loadIDKitScript`. -/
structure GlobalState where
  idkitLoading : Option Nat
  markerPresent : Bool
  nextId : Nat
  started : Nat
deriving DecidableEq

/-- One synchronous `loadIDKitScript()` call. -/
def loadCall (isWeb : Bool) (env : LoaderEnv) (s : GlobalState) :
    CallOutcome × GlobalState :=
  if !isWeb then (CallOutcome.nativeResolved, s)
  else
    match s.idkitLoading with
    | some p => (CallOutcome.existingRef p, s)
    | none =>
      if s.markerPresent then
        (CallOutcome.markerResolved s.nextId,
         { s with idkitLoading := some s.nextId, nextId := s.nextId + 1 })
      else
        (CallOutcome.startedLoad s.nextId (runLoad env),
         { s with idkitLoading := some s.nextId, nextId := s.nextId + 1,
                  started := s.started + 1 })

/-- Deferred settlement of a started attempt sequence with trace `tr`. -/
def settleLoad (s : GlobalState) (tr : List Ev) : GlobalState :=
  { s with markerPresent := !(docScripts tr).isEmpty,
           idkitLoading := if didReject tr then none else s.idkitLoading }

/-- `n` consecutive `loadIDKitScript()` calls. -/
def callsN (isWeb : Bool) (env : LoaderEnv) :
    Nat → GlobalState → List CallOutcome × GlobalState
  | 0, s => ([], s)
  | n + 1, s =>
    let r := loadCall isWeb env s
    let rs := callsN isWeb env n r.2
    (r.1 :: rs.1, rs.2)

theorem callsN_dedup (env : LoaderEnv) (p : Nat) :
    ∀ (n : Nat) (s : GlobalState), s.idkitLoading = some p →
      (callsN true env n s).2 = s ∧
      ∀ x ∈ (callsN true env n s).1, x = CallOutcome.existingRef p
  | 0, s, h => by simp [callsN]
  | n + 1, s, h => by
    have hcall : loadCall true env s = (CallOutcome.existingRef p, s) := by
      simp [loadCall, h]
    have ih := callsN_dedup env p n s h
    simp [callsN, hcall, ih.1]
    intro x hx
    exact ih.2 x hx

/-! ## Environment detection (`useIsWorldApp`, lines 287-299;
`isWorldEnv`, `index.tsx` lines 31-36) -/

/-- `pat` is a prefix of `l` (character lists). -/
def prefAt : List Char → List Char → Bool
  | [], _ => true
  | _ :: _, [] => false
  | a :: as, b :: bs => a == b && prefAt as bs

/-- `pat` occurs somewhere in `l`. -/
def subIn (pat : List Char) : List Char → Bool
  | [] => prefAt pat []
  | c :: rest => prefAt pat (c :: rest) || subIn pat rest

/-- Model of the ECMAScript `String.prototype.includes`. -/
def strIncludes (hay pat : String) : Bool :=
  subIn pat.toList hay.toList

/-- The detector shared by `useIsWorldApp` and `isWorldEnv`: off the web
platform the answer is `false`; on the web the context counts as the
dedicated client when the user agent contains `WorldApp` or one of the
global capability flags `MiniKit` / `miniwallet` is set. -/
def isWorldEnv (isWeb : Bool) (ua : String) (miniKit miniwallet : Bool) :
    Bool :=
  if !isWeb then false
  else strIncludes ua "WorldApp" || miniKit || miniwallet

/-- The home screen renders the scan banner iff it runs on the web and the
detector classified the context as a generic browser
(`index.tsx` line 178: `isWeb && !isWorldEnv`). -/
def showScanBanner (isWeb : Bool) (ua : String) (miniKit miniwallet : Bool) :
    Bool :=
  isWeb && !(isWorldEnv isWeb ua miniKit miniwallet)

/-- The auto-open path of `initWorldID` proceeds iff the effect runs on
the web and the detector classified the context as the dedicated client
(`index.tsx` lines 44-48: the effect returns early otherwise). -/
def autoOpenTaken (isWeb : Bool) (ua : String) (miniKit miniwallet : Bool) :
    Bool :=
  isWeb && isWorldEnv isWeb ua miniKit miniwallet

/-! ## The verify button (`WorldIDVerifyButton`, lines 322-465)

`onPress` (lines 388-442) is modelled as a transition on the component's
mutable state, with the press-time environment (whether the load promise
settles successfully, whether `widgetRef.current` is set and exposes an
`open` function, whether a global SDK with `open` exists) supplied as
input, since all of these are re-read from the live environment at each
press. -/

/-- Mutable state of `WorldIDVerifyButton`: the `openingRef` guard, the
`ready` flag and the error message. -/
structure BtnState where
  opening : Bool
  ready : Bool
  errorMsg : Option String
deriving DecidableEq

/-- Press-time environment of one `onPress` invocation. -/
structure PressEnv where
  isWeb : Bool
  loadSucceeds : Bool
  widgetRefSet : Bool
  widgetHasOpen : Bool
  sdkHasOpen : Bool
deriving DecidableEq

/-- Outcome of one `onPress` invocation. -/
inductive PressResult where
  | nativeBlocked
  | guardBlocked
  | loadFailed
  | openedWidget
  | openedSdk
  | sdkNotFound
deriving DecidableEq

/-- `onPress` (lines 388-442): native bail-out; `openingRef` guard;
`await loadIDKitScript()` (a rejection lands in the catch, which records
the error and resets the guard); then the widget path when
`widgetRef.current` exposes `open` (which resets the guard at once,
line 401), else the global-SDK path (the guard stays set until `onClose`),
else the thrown `IDKit SDK not found` error (caught: error recorded,
guard reset). -/
def onPress (env : PressEnv) (s : BtnState) : PressResult × BtnState :=
  if !env.isWeb then
    (PressResult.nativeBlocked,
     { s with errorMsg := some "Not available on native" })
  else if s.opening then (PressResult.guardBlocked, s)
  else if !env.loadSucceeds then
    (PressResult.loadFailed,
     { s with opening := false, errorMsg := some loadFailMsg })
  else if env.widgetRefSet && env.widgetHasOpen then
    (PressResult.openedWidget, { s with opening := false })
  else if env.sdkHasOpen then
    (PressResult.openedSdk, { s with opening := true })
  else
    (PressResult.sdkNotFound,
     { s with opening := false, errorMsg := some "IDKit SDK not found" })

/-- The `onClose` callback passed to `sdk.open` (lines 432-435): reset the
`openingRef` guard. -/
def onCloseCb (s : BtnState) : BtnState := { s with opening := false }

/-- The trigger control's `disabled` prop (line 452): `!ready`. -/
def verifyButtonDisabled (s : BtnState) : Bool := !s.ready

/-! ## Concrete oracle instances used by witnesses -/

/-- Oracle whose every injected script loads; an SDK global exists. -/
def envAllLoads : LoaderEnv := ⟨fun _ => Fate.loads, fun _ => 0, true⟩

/-- Oracle whose every injected script fires `onerror`. -/
def envAllErrs : LoaderEnv := ⟨fun _ => Fate.errs, fun _ => 0, true⟩

/-- Oracle whose every injected script hangs until the timer fires. -/
def envAllHangs : LoaderEnv := ⟨fun _ => Fate.hangs, fun _ => 0, true⟩

/-- Oracle where candidate 1 times out and candidate 2 loads. -/
def envHangThenLoad : LoaderEnv :=
  ⟨fun k => if k = 0 then Fate.hangs else Fate.loads, fun _ => 0, true⟩

/-- Oracle whose first script loads but no SDK global appears. -/
def envLoadsNoSdk : LoaderEnv := ⟨fun _ => Fate.loads, fun _ => 0, false⟩

/-- Fresh global state: no singleton, no marker script. -/
def gs0 : GlobalState := ⟨none, false, 0, 0⟩

/-- Button state after a successful bootstrap: guard clear, ready. -/
def btnReady : BtnState := ⟨false, true, none⟩

/-! ## C1 -/

/-- C1, as stated, is false: the claimed redirect target applies a single
URL-encoding, but the code passes `encodeURIComponent(JSON.stringify(result))`
to `url.searchParams.set`, and serializing the `URL` percent-encodes the
stored value a second time, so every `%` of the inner encoding becomes
`%25`.  For payload `{ "nonce": "abc" }` and base
`https://example.com/callback` the page does not navigate to
`https://example.com/callback?result=%7B%22nonce%22%3A%22abc%22%7D`. -/
theorem c1_counterexample :
    redirectTarget "https://example.com/callback" noncePayload ≠
      "https://example.com/callback?result=%7B%22nonce%22%3A%22abc%22%7D" := by
  decide

/-- C1 amended: for the successful verification payload
`{ "nonce": "abc" }` and callback base `https://example.com/callback`,
the redirect target the page navigates to is the doubly URL-encoded
`https://example.com/callback?result=%257B%2522nonce%2522%253A%2522abc%2522%257D`
(the `result` parameter is the URL-encoded form of the already
URL-encoded JSON of the payload). -/
theorem c1_amended :
    redirectTarget "https://example.com/callback" noncePayload =
      "https://example.com/callback?result=%257B%2522nonce%2522%253A%2522abc%2522%257D" := by
  decide

/-! ## C4 -/

/-- C4, as stated, is false: the open strategy is re-evaluated at every
press from the live condition
`widgetRef.current && typeof widgetRef.current.open === 'function'`
(line 398).  In one page session where the widget element exists
throughout but only acquires its `open` method between the first and the
second press (as happens when the SDK upgrades the custom element after
the first press), the first press takes the global-SDK path and the
second press takes the widget path, so the two strategies are not
decided once at first bootstrap. -/
theorem c4_counterexample :
    (onPress ⟨true, true, true, false, true⟩ btnReady).1 =
      PressResult.openedSdk ∧
    (onPress ⟨true, true, true, true, true⟩
        (onCloseCb (onPress ⟨true, true, true, false, true⟩ btnReady).2)).1 =
      PressResult.openedWidget ∧
    PressResult.openedSdk ≠ PressResult.openedWidget := by
  decide

/-- C4 amended: at each individual open attempt exactly one of the two
strategies is used, chosen by re-evaluating at that press whether the
widget element currently exposes an `open` function: the widget path is
taken iff `widgetRef.current` is set and has `open`, and the global-SDK
path is taken iff the widget path is unavailable and a global SDK with
`open` exists; the two paths are mutually exclusive within a press, but
the choice may differ between presses when the widget's capability
changes. -/
theorem c4_amended (env : PressEnv) (s : BtnState)
    (hw : env.isWeb = true) (ho : s.opening = false)
    (hl : env.loadSucceeds = true) :
    ((onPress env s).1 = PressResult.openedWidget ↔
      (env.widgetRefSet && env.widgetHasOpen) = true) ∧
    ((onPress env s).1 = PressResult.openedSdk ↔
      (!(env.widgetRefSet && env.widgetHasOpen) && env.sdkHasOpen) = true) ∧
    ¬((onPress env s).1 = PressResult.openedWidget ∧
      (onPress env s).1 = PressResult.openedSdk) := by
  cases hwp : env.widgetRefSet && env.widgetHasOpen <;>
    cases hsk : env.sdkHasOpen <;>
      simp [onPress, hw, ho, hl, hwp, hsk]

/-- Witness for `c4_amended` at a concrete press environment. -/
theorem c4_amended_witness :
    (onPress ⟨true, true, true, true, false⟩ btnReady).1 =
      PressResult.openedWidget ∧
    (onPress ⟨true, true, false, false, true⟩ btnReady).1 =
      PressResult.openedSdk := by
  have h1 := c4_amended ⟨true, true, true, true, false⟩ btnReady rfl rfl rfl
  have h2 := c4_amended ⟨true, true, false, false, true⟩ btnReady rfl rfl rfl
  exact ⟨h1.1.mpr (by decide), h2.2.1.mpr (by decide)⟩

/-! ## C7 -/

/-- C7: on the web platform, a user agent containing `WorldApp` (or a set
`MiniKit` / `miniwallet` global flag) classifies the context as the
dedicated client, in which case the auto-open path of `initWorldID` is
taken and the scan banner is not rendered; with no marker in the user
agent and no flags set, the context is classified as a generic browser,
the banner is rendered, and no auto-open happens. -/
theorem c7_env_detection (ua : String) (mk mw : Bool) :
    (strIncludes ua "WorldApp" = true ∨ mk = true ∨ mw = true →
      isWorldEnv true ua mk mw = true ∧
      autoOpenTaken true ua mk mw = true ∧
      showScanBanner true ua mk mw = false) ∧
    (strIncludes ua "WorldApp" = false → mk = false → mw = false →
      isWorldEnv true ua mk mw = false ∧
      showScanBanner true ua mk mw = true ∧
      autoOpenTaken true ua mk mw = false) := by
  constructor
  · intro h
    rcases h with h | h | h <;>
      simp [isWorldEnv, autoOpenTaken, showScanBanner, h]
  · intro h1 h2 h3
    simp [isWorldEnv, autoOpenTaken, showScanBanner, h1, h2, h3]

/-- Witness for `c7_env_detection`: a World App user agent and a plain
Chrome user agent. -/
theorem c7_witness :
    isWorldEnv true "Mozilla/5.0 (iPhone) WorldApp/2.8.4" false false =
      true ∧
    showScanBanner true "Mozilla/5.0 (Windows NT 10.0) Chrome/120.0" false
      false = true := by
  have h1 :=
    (c7_env_detection "Mozilla/5.0 (iPhone) WorldApp/2.8.4" false false).1
      (Or.inl (by decide))
  have h2 :=
    (c7_env_detection "Mozilla/5.0 (Windows NT 10.0) Chrome/120.0" false
      false).2 (by decide) rfl rfl
  exact ⟨h1.1, h2.2.1⟩

/-! ## C8 -/

/-- C8: the `onClose` callback resets the `opening` guard, so after the
user dismisses the widget without completing verification the trigger
control is enabled (its `disabled` prop depends only on `ready`) and the
next press is not swallowed by the guard. -/
theorem c8_close_resets_guard (s : BtnState) (env : PressEnv)
    (hr : s.ready = true) (hw : env.isWeb = true) :
    (onCloseCb s).opening = false ∧
    verifyButtonDisabled (onCloseCb s) = false ∧
    (onPress env (onCloseCb s)).1 ≠ PressResult.guardBlocked := by
  refine ⟨rfl, by simp [verifyButtonDisabled, onCloseCb, hr], ?_⟩
  simp only [onPress, onCloseCb, hw]
  split_ifs <;> simp_all

/-- Witness for `c8_close_resets_guard`: a button whose guard was left set
by an SDK-path open, then closed. -/
theorem c8_witness :
    (onCloseCb ⟨true, true, none⟩).opening = false ∧
    (onPress ⟨true, true, true, true, true⟩
        (onCloseCb ⟨true, true, none⟩)).1 ≠ PressResult.guardBlocked := by
  have h :=
    c8_close_resets_guard ⟨true, true, none⟩ ⟨true, true, true, true, true⟩
      rfl rfl
  exact ⟨h.1, h.2.2⟩

/-! ## C10 -/

/-- C10: the loader's `onload` handler resolves even when no IDKit global
exists (it merely warns), so a resolved `load()` does not guarantee SDK
availability; the absence is only detected at open time in `onPress`,
where it surfaces as the `IDKit SDK not found` error. -/
theorem c10_resolve_without_sdk (env : LoaderEnv) (c k attempt : Nat)
    (url : String) (rest : List String) (ub : Bool) (s : BtnState)
    (hf : env.fate k = Fate.loads) (hs : env.sdkPresent = false)
    (ho : s.opening = false) :
    tryLoadRun env c k attempt (url :: rest) ub =
      [Ev.inject url, Ev.warnSdkMissing, Ev.resolve] ∧
    (onPress ⟨true, true, false, false, false⟩ s).1 =
      PressResult.sdkNotFound ∧
    (onPress ⟨true, true, false, false, false⟩ s).2.errorMsg =
      some "IDKit SDK not found" := by
    refine ⟨by simp [tryLoadRun, hf, warnOpt, hs], ?_, ?_⟩ <;>
      simp [onPress, ho]

/-- Witness for `c10_resolve_without_sdk`: first candidate loads with no
SDK global, then a press finds neither widget nor SDK. -/
theorem c10_witness :
    tryLoadRun envLoadsNoSdk 0 0 1 sourcesBase false =
      [Ev.inject "https://idkit.worldcoin.org/idkit.js",
       Ev.warnSdkMissing, Ev.resolve] ∧
    (onPress ⟨true, true, false, false, false⟩ btnReady).1 =
      PressResult.sdkNotFound := by
  have h :=
    c10_resolve_without_sdk envLoadsNoSdk 0 0 1
      "https://idkit.worldcoin.org/idkit.js"
      ["https://id.worldcoin.org/idkit.js",
       "https://cdn.worldcoin.org/idkit.js"] false btnReady rfl rfl rfl
  exact ⟨h.1, h.2.1⟩

theorem docScripts_skip (l : List String) (rest : List Ev) :
    docScripts (failPairs l ++ rest) = docScripts rest := by
  simpa [docScripts] using docScripts_failPairs l rest

theorem tryLoadRun_cons_fail (env : LoaderEnv) {k : Nat}
    (hf : env.fate k ≠ Fate.loads) (c attempt : Nat) (url : String)
    (rest : List String) (ub : Bool) :
    tryLoadRun env c k attempt (url :: rest) ub =
      Ev.inject url :: Ev.remove url ::
        tryLoadRun env c (k + 1) attempt rest ub := by
  cases h : env.fate k
  · exact absurd h hf
  · simp [tryLoadRun, h]
  · simp [tryLoadRun, h]

/-! ## C2 -/

/-- C2: starting from a fresh state, the first `loadIDKitScript()` call
creates the shared promise and starts exactly one attempt sequence
(`started` rises by one), and every further call made while that promise
is in flight — or after it settled successfully — returns the very same
promise, changes nothing, and starts no further attempt sequence, so all
callers share one promise and hence settle with one common outcome. -/
theorem c2_load_dedups (env : LoaderEnv) (s : GlobalState) (n : Nat)
    (h1 : s.idkitLoading = none) (h2 : s.markerPresent = false) :
    (loadCall true env s).1 = CallOutcome.startedLoad s.nextId (runLoad env) ∧
    (loadCall true env s).2.started = s.started + 1 ∧
    (loadCall true env s).2.idkitLoading = some s.nextId ∧
    ((callsN true env n (loadCall true env s).2).2 = (loadCall true env s).2 ∧
      ∀ x ∈ (callsN true env n (loadCall true env s).2).1,
        x = CallOutcome.existingRef s.nextId) ∧
    (∀ tr, didReject tr = false →
      (callsN true env n (settleLoad (loadCall true env s).2 tr)).2 =
        settleLoad (loadCall true env s).2 tr ∧
      ∀ x ∈ (callsN true env n (settleLoad (loadCall true env s).2 tr)).1,
        x = CallOutcome.existingRef s.nextId) := by
  have hc : loadCall true env s =
      (CallOutcome.startedLoad s.nextId (runLoad env),
       { s with idkitLoading := some s.nextId, nextId := s.nextId + 1,
                started := s.started + 1 }) := by
    simp [loadCall, h1, h2]
  refine ⟨by rw [hc], by rw [hc], by rw [hc], ?_, ?_⟩
  · exact callsN_dedup env s.nextId n _ (by rw [hc])
  · intro tr htr
    refine callsN_dedup env s.nextId n _ ?_
    simp [settleLoad, htr, hc]

/-- Witness for `c2_load_dedups`: three calls after a started load. -/
theorem c2_witness :
    (loadCall true envAllLoads gs0).1 =
      CallOutcome.startedLoad 0 (runLoad envAllLoads) ∧
    (loadCall true envAllLoads gs0).2.started = 1 ∧
    (callsN true envAllLoads 3 (loadCall true envAllLoads gs0).2).2 =
      (loadCall true envAllLoads gs0).2 := by
  have h := c2_load_dedups envAllLoads gs0 3 rfl rfl
  exact ⟨h.1, h.2.1, h.2.2.2.1.1⟩

/-! ## C3 -/

/-- C3: when every candidate fails in every cycle up to the cap of 3, the
run ends in rejection with the descriptive `Failed to load IDKit script`
error; settling that rejection clears the process-wide singleton (the
registered `.catch` deletes `window._idkitLoading`) and leaves no marker
script in the document, so the next `loadIDKitScript()` call starts a
fresh attempt sequence whose first injected URL is the plain (not
cache-busted) first candidate. -/
theorem c3_exhaustion_resets (env env2 : LoaderEnv) (s : GlobalState)
    (h1 : s.idkitLoading = none) (h2 : s.markerPresent = false)
    (hf : ∀ i, i < 9 → env.fate i ≠ Fate.loads) :
    (loadCall true env s).1 = CallOutcome.startedLoad s.nextId (runLoad env) ∧
    (runLoad env).getLast? = some (Ev.reject loadFailMsg) ∧
    (settleLoad (loadCall true env s).2 (runLoad env)).idkitLoading = none ∧
    (settleLoad (loadCall true env s).2 (runLoad env)).markerPresent =
      false ∧
    (loadCall true env2 (settleLoad (loadCall true env s).2 (runLoad env))).1 =
      CallOutcome.startedLoad (loadCall true env s).2.nextId (runLoad env2) ∧
    (runLoad env2).head? =
      some (Ev.inject "https://idkit.worldcoin.org/idkit.js") := by
  have heq : runLoad env =
      failPairs (plannedUrls env) ++ [Ev.reject loadFailMsg] := by
    rcases runLoad_shape env with ⟨_, heq⟩ | ⟨j, hj, hl, _, _⟩
    · exact heq
    · exact absurd hl (hf j hj)
  have hc : loadCall true env s =
      (CallOutcome.startedLoad s.nextId (runLoad env),
       { s with idkitLoading := some s.nextId, nextId := s.nextId + 1,
                started := s.started + 1 }) := by
    simp [loadCall, h1, h2]
  have hdoc : docScripts (runLoad env) = [] := by
    rw [heq, docScripts_skip]
    simp [docScripts]
  have hrej : didReject (runLoad env) = true := by
    rw [heq]
    exact didReject_exhausted env loadFailMsg
  have hset1 :
      (settleLoad (loadCall true env s).2 (runLoad env)).idkitLoading =
        none := by
    simp [settleLoad, hrej]
  have hset2 :
      (settleLoad (loadCall true env s).2 (runLoad env)).markerPresent =
        false := by
    simp [settleLoad, hdoc]
  have hset3 :
      (settleLoad (loadCall true env s).2 (runLoad env)).nextId =
        (loadCall true env s).2.nextId := by
    simp [settleLoad]
  refine ⟨by rw [hc], by rw [heq]; exact List.getLast?_concat _, hset1, hset2,
    ?_, runLoad_head env2⟩
  rw [← hset3]
  set s2 := settleLoad (loadCall true env s).2 (runLoad env) with hs2
  simp [loadCall, hset1, hset2]

/-- Witness for `c3_exhaustion_resets`: all nine candidates hang, then a
retry against an all-error oracle starts at the plain first candidate. -/
theorem c3_witness :
    (runLoad envAllHangs).getLast? = some (Ev.reject loadFailMsg) ∧
    (settleLoad (loadCall true envAllHangs gs0).2
        (runLoad envAllHangs)).idkitLoading = none ∧
    (runLoad envAllErrs).head? =
      some (Ev.inject "https://idkit.worldcoin.org/idkit.js") := by
  have h :=
    c3_exhaustion_resets envAllHangs envAllErrs gs0 rfl rfl
      (fun i hi => by simp [envAllHangs])
  exact ⟨h.2.1, h.2.2.1, h.2.2.2.2.2⟩

/-! ## C5 -/

/-- C5: within a run the candidates are injected strictly in listed
order: the trace is exactly the planned URL sequence up to the first
success, with each failed candidate's script removed before the next
candidate is injected (the `failPairs` shape).  In particular, when
candidate 1 fails (times out or errors) and candidate 2 loads, the
loader resolves having first removed candidate 1's script, and only
candidate 2's script remains in the document. -/
theorem c5_candidates_in_order (env : LoaderEnv) :
    (((∀ i, i < 9 → env.fate i ≠ Fate.loads) ∧
      runLoad env = failPairs (plannedUrls env) ++ [Ev.reject loadFailMsg]) ∨
    (∃ j, j < 9 ∧ env.fate j = Fate.loads ∧
      (∀ i, i < j → env.fate i ≠ Fate.loads) ∧
      runLoad env =
        failPairs ((plannedUrls env).take j) ++
          Ev.inject ((plannedUrls env).getD j "") :: warnOpt env.sdkPresent ++
            [Ev.resolve])) ∧
    (env.fate 0 ≠ Fate.loads → env.fate 1 = Fate.loads →
      runLoad env =
        Ev.inject "https://idkit.worldcoin.org/idkit.js" ::
          Ev.remove "https://idkit.worldcoin.org/idkit.js" ::
            Ev.inject "https://id.worldcoin.org/idkit.js" ::
              warnOpt env.sdkPresent ++ [Ev.resolve] ∧
      docScripts (runLoad env) = ["https://id.worldcoin.org/idkit.js"]) := by
  refine ⟨runLoad_shape env, ?_⟩
  intro hf0 hf1
  rcases runLoad_shape env with ⟨hall, _⟩ | ⟨j, hj, hl, hfail, heq⟩
  · exact absurd hf1 (hall 1 (by omega))
  · have hj1 : j = 1 := by
      rcases j with _ | _ | j'
      · exact absurd hl hf0
      · rfl
      · exact absurd hf1 (hfail 1 (by omega))
    subst hj1
    have hp : plannedUrls env =
        "https://idkit.worldcoin.org/idkit.js" ::
          "https://id.worldcoin.org/idkit.js" ::
            ("https://cdn.worldcoin.org/idkit.js" ::
              (bustUrls env.now 0 1 ++ sourcesBase)) := by
      simp [plannedUrls, sourcesBase]
    rw [hp] at heq
    simp only [List.take_succ_cons, List.take_zero, List.getD_cons_succ,
      List.getD_cons_zero] at heq
    have htr : runLoad env =
        Ev.inject "https://idkit.worldcoin.org/idkit.js" ::
          Ev.remove "https://idkit.worldcoin.org/idkit.js" ::
            Ev.inject "https://id.worldcoin.org/idkit.js" ::
              warnOpt env.sdkPresent ++ [Ev.resolve] := by
      simpa [failPairs] using heq
    refine ⟨htr, ?_⟩
    rw [htr]
    cases hsdk : env.sdkPresent <;> simp [docScripts, warnOpt, hsdk]

/-- Witness for `c5_candidates_in_order`: candidate 1 hangs, candidate 2
loads. -/
theorem c5_witness :
    runLoad envHangThenLoad =
      [Ev.inject "https://idkit.worldcoin.org/idkit.js",
       Ev.remove "https://idkit.worldcoin.org/idkit.js",
       Ev.inject "https://id.worldcoin.org/idkit.js", Ev.resolve] ∧
    docScripts (runLoad envHangThenLoad) =
      ["https://id.worldcoin.org/idkit.js"] := by
  have h := (c5_candidates_in_order envHangThenLoad).2
    (by simp [envHangThenLoad]) (by simp [envHangThenLoad])
  exact ⟨by simpa [warnOpt, envHangThenLoad] using h.1, h.2⟩

/-! ## C6 -/

/-- C6: per-candidate failures are absorbed: the bounded wait is
`timeoutMs = 15000` milliseconds; a candidate whose oracle fate is not
`loads` (network error or timeout) has its script removed and the next
candidate tried; a network error arriving at time `t < 15000` wins the
race against the timer and settles at `t` (no waiting for the timeout),
while a silent candidate settles only at the 15000 ms bound; and no
per-candidate failure surfaces to the caller — whenever any of the nine
planned candidates loads, the run resolves and contains no rejection. -/
theorem c6_failures_absorbed :
    timeoutMs = 15000 ∧
    (∀ (env : LoaderEnv) (c k attempt : Nat) (url : String)
        (rest : List String) (ub : Bool), env.fate k ≠ Fate.loads →
      tryLoadRun env c k attempt (url :: rest) ub =
        Ev.inject url :: Ev.remove url ::
          tryLoadRun env c (k + 1) attempt rest ub) ∧
    (∀ t, t < timeoutMs →
      raceFate (NetEvent.errorAt t) = Fate.errs ∧
      settleDelay (NetEvent.errorAt t) = t) ∧
    settleDelay NetEvent.silent = timeoutMs ∧
    (∀ (env : LoaderEnv) (j : Nat), j < 9 → env.fate j = Fate.loads →
      Ev.reject loadFailMsg ∉ runLoad env ∧ Ev.resolve ∈ runLoad env) := by
  refine ⟨rfl, ?_, ?_, rfl, ?_⟩
  · intro env c k attempt url rest ub hf
    exact tryLoadRun_cons_fail env hf c attempt url rest ub
  · intro t ht
    exact ⟨by simp [raceFate, ht],
      by simp [settleDelay, Nat.min_eq_left (Nat.le_of_lt ht)]⟩
  · intro env j hj hl
    have hsucc : ∃ j', j' < 9 ∧ env.fate j' = Fate.loads := ⟨j, hj, hl⟩
    rcases runLoad_shape env with ⟨hall, _⟩ | ⟨j', hj', hl', hfail', heq⟩
    · rcases hsucc with ⟨j', hj', hl'⟩
      exact absurd hl' (hall j' hj')
    · constructor
      · rw [heq]
        intro hmem
        rcases List.mem_append.mp hmem with hm | hm
        · rcases List.mem_append.mp hm with hm2 | hm2
          · rcases mem_failPairs hm2 with ⟨u, _, h | h⟩ <;> simp at h
          · rcases List.mem_cons.mp hm2 with h | h
            · simp at h
            · cases hsdk : env.sdkPresent <;> simp [warnOpt, hsdk] at h
        · simp at hm
      · rw [heq]
        simp

/-- Witness for `c6_failures_absorbed`: a concrete erroring candidate, a
network error at 100 ms, and a run whose first candidate loads. -/
theorem c6_witness :
    tryLoadRun envAllErrs 0 0 1
        ["https://idkit.worldcoin.org/idkit.js"] false =
      Ev.inject "https://idkit.worldcoin.org/idkit.js" ::
        Ev.remove "https://idkit.worldcoin.org/idkit.js" ::
          tryLoadRun envAllErrs 0 1 1 [] false ∧
    raceFate (NetEvent.errorAt 100) = Fate.errs ∧
    settleDelay (NetEvent.errorAt 100) = 100 ∧
    Ev.resolve ∈ runLoad envAllLoads := by
  have h := c6_failures_absorbed
  exact ⟨h.2.1 envAllErrs 0 0 1 "https://idkit.worldcoin.org/idkit.js" []
      false (by simp [envAllErrs]),
    (h.2.2.1 100 (by decide)).1, (h.2.2.1 100 (by decide)).2,
    (h.2.2.2.2 envAllLoads 0 (by omega) (by simp [envAllLoads])).2⟩

/-! ## C9 -/

/-- C9: within one `load()` call the cache-bust flag flips on each
exhausted pass, so the first cycle injects the plain candidate URLs, the
second cycle injects each URL with a `?v=${Date.now()}-1` cache-busting
suffix (the attempt counter read before its increment is 1), and the
third and final cycle injects the plain URLs again. -/
theorem c9_cache_bust_alternates (now : Nat → Nat) (sdk : Bool) :
    injectedUrls (runLoad ⟨fun _ => Fate.errs, now, sdk⟩) =
      sourcesBase ++ bustUrls now 0 1 ++ sourcesBase ∧
    bustUrls now 0 1 =
      ["https://idkit.worldcoin.org/idkit.js" ++ "?v=" ++
        toString (now 0) ++ "-" ++ toString 1,
       "https://id.worldcoin.org/idkit.js" ++ "?v=" ++
        toString (now 1) ++ "-" ++ toString 1,
       "https://cdn.worldcoin.org/idkit.js" ++ "?v=" ++
        toString (now 2) ++ "-" ++ toString 1] := by
  constructor
  · have heq : runLoad ⟨fun _ => Fate.errs, now, sdk⟩ =
        failPairs (plannedUrls ⟨fun _ => Fate.errs, now, sdk⟩) ++
          [Ev.reject loadFailMsg] := by
      rcases runLoad_shape ⟨fun _ => Fate.errs, now, sdk⟩ with
        ⟨_, h⟩ | ⟨j, _, hl, _, _⟩
      · exact h
      · simp at hl
    rw [heq, injectedUrls_append, injectedUrls_failPairs]
    simp [injectedUrls, plannedUrls]
  · rfl
